import Mathlib

/-!
Verification of the TiledArray communication and foreach core against its
specification. The definitions below are a shallow embedding of the C++
sources: conversions/foreach.h, dist_op/communicator.h, tensor_impl.h.
Tiles are abstract values; futures are modelled by a probe flag plus the
value they carry; the task queue is modelled by recording, in issue order,
the effects the code would dispatch.
-/

namespace TA

/-- Sparsity-combination policy, from foreach.h line 45. -/
inductive ArraySparcitySet where
  | sparse_union
  | sparse_intersection

/-- From foreach.h lines 115-118: true when any operand is zero at the index. -/
def is_zero_intersection (l : List Bool) : Bool :=
  l.any (fun v => v)

/-- From foreach.h lines 120-123: true when all operands are zero at the index. -/
def is_zero_union (l : List Bool) : Bool :=
  l.all (fun v => v)

/-- A sparse DistArray as consumed by foreach.h: a tiled-range identity
(modelled by the tiles-range volume), the list of locally owned tile
ordinals in process-map iteration order, the shape is_zero predicate, and
the tile storage. -/
structure SparseArray (α : Type) where
  trange : Nat
  pmapList : List Nat
  shapeZero : Nat → Bool
  tiles : Nat → α

def SparseArray.is_zero {α : Type} (a : SparseArray α) (i : Nat) : Bool :=
  a.shapeZero i

def SparseArray.find {α : Type} (a : SparseArray α) (i : Nat) : α :=
  a.tiles i

/-- From foreach.h lines 126-138: fetch the tile when the operand is
non-zero at the index, otherwise supply a default-constructed tile. -/
def get_sparse_tile {α : Type} [Inhabited α] (index : Nat) (array : SparseArray α) : α :=
  if ! array.is_zero index then array.find index else default

/-- Mutable state threaded through the sparse foreach loop: the tile_norms
tensor (initialized to 0 over the tiles range), the atomic completion
counter, the task_count, and the tiles vector of (index, pending tile). -/
structure SparseState (β : Type) where
  tileNorms : Nat → Nat
  counter : Nat
  taskCount : Nat
  tiles : List (Nat × β)

def initialSparseState (β : Type) : SparseState β :=
  { tileNorms := fun _ => 0, counter := 0, taskCount := 0, tiles := [] }

/-- One spawned per-tile task of the sparse foreach (foreach.h lines
206-216, 226-229, 237-240): run the transform, write its norm into
tile_norms at the index, bump the completion counter; the loop bumps
task_count and appends the pending tile to the tiles vector. -/
def spawnTile {α β : Type} (op : α → List α → β × Nat) (st : SparseState β)
    (index : Nat) (argTile : α) (argTiles : List α) : SparseState β :=
  let r := op argTile argTiles
  { tileNorms := fun j => if j = index then r.2 else st.tileNorms j
    counter := st.counter + 1
    taskCount := st.taskCount + 1
    tiles := st.tiles ++ [(index, r.1)] }

/-- The switch over the sparsity policy in detail::foreach (SparsePolicy),
foreach.h lines 220-246, embedded exactly as written: the loop keeps an
index precisely when the guard if(! is_zero_...) continue does not fire. -/
def sparseLoop {α β : Type} [Inhabited α] (sparse_set : ArraySparcitySet)
    (op : α → List α → β × Nat)
    (arg : SparseArray α) (args : List (SparseArray α)) : SparseState β :=
  match sparse_set with
  | ArraySparcitySet.sparse_intersection =>
      arg.pmapList.foldl (fun st index =>
        if ! is_zero_intersection (arg.is_zero index :: args.map (fun a => a.is_zero index))
        then st
        else spawnTile op st index (arg.find index) (args.map (fun a => a.find index)))
        (initialSparseState β)
  | ArraySparcitySet.sparse_union =>
      arg.pmapList.foldl (fun st index =>
        if ! is_zero_union (arg.is_zero index :: args.map (fun a => a.is_zero index))
        then st
        else spawnTile op st index (get_sparse_tile index arg)
          (args.map (fun a => get_sparse_tile index a)))
        (initialSparseState β)

/-- Result of detail::foreach (SparsePolicy): the final loop state as it
stands when the await completes, the result array metadata, the shape
built from the tile_norms tensor, and the tiles committed by the final
loop (foreach.h lines 248-259). -/
structure SparseForeachResult (β : Type) where
  state : SparseState β
  resultTrange : Nat
  resultPmap : List Nat
  resultIsZero : Nat → Bool
  committed : List (Nat × β)

/-- detail::foreach (SparsePolicy), foreach.h lines 180-262: run the
policy loop, wait for the counter (sequential embedding: all tasks have
run), build the result shape from tile_norms via the shape constructor
shapeOf, then commit each pending tile whose index the new shape holds
non-zero. -/
def sparseForeach {α β : Type} [Inhabited α] (sparse_set : ArraySparcitySet)
    (op : α → List α → β × Nat) (arg : SparseArray α) (args : List (SparseArray α))
    (shapeOf : (Nat → Nat) → Nat → Bool) : SparseForeachResult β :=
  let st := sparseLoop sparse_set op arg args
  let isZero := shapeOf st.tileNorms
  { state := st
    resultTrange := arg.trange
    resultPmap := arg.pmapList
    resultIsZero := isZero
    committed := st.tiles.filter (fun p => ! isZero p.1) }

/-- A dense DistArray as consumed by foreach.h. -/
structure DenseArray (α : Type) where
  trange : Nat
  pmapList : List Nat
  tiles : Nat → α

def DenseArray.find {α : Type} (a : DenseArray α) (i : Nat) : α :=
  a.tiles i

/-- From foreach.h lines 91-111: all trailing operand arrays must have the
tiled range of the first. Note: this helper is never invoked by
detail::foreach. -/
def compare_trange {α : Type} (arg : DenseArray α) (args : List (DenseArray α)) : Bool :=
  args.all (fun a => arg.trange == a.trange)

/-- Result of detail::foreach (DensePolicy): result array metadata, the
indices for which tasks were spawned, and the tiles stored via result.set. -/
structure DenseForeachResult (β : Type) where
  resultTrange : Nat
  resultPmap : List Nat
  tasks : List Nat
  resultTiles : List (Nat × β)

/-- detail::foreach (DensePolicy), foreach.h lines 144-175: build the
result on the trange and pmap of the first argument, then for every
locally owned index spawn one task applying the transform to the operand
tiles and store the resulting tile at the same index. No trange
comparison is performed. -/
def denseForeach {α β : Type} (op : α → List α → β)
    (arg : DenseArray α) (args : List (DenseArray α)) : DenseForeachResult β :=
  { resultTrange := arg.trange
    resultPmap := arg.pmapList
    tasks := arg.pmapList
    resultTiles := arg.pmapList.map
      (fun i => (i, op (arg.find i) (args.map (fun a => a.find i)))) }

/-- Observable events of foreach_inplace: the world fence and the
assignment of the freshly built array back onto the argument. -/
inductive InplaceEvent (ρ : Type) where
  | fenceEv
  | assignEv (r : ρ)

/-- foreach_inplace (DensePolicy), foreach.h lines 364-374: fence first
when the flag demands it, then assign the result of the dense foreach. -/
def foreach_inplace_dense {α : Type} (op : α → List α → α)
    (arg : DenseArray α) (fence : Bool) : List (InplaceEvent (DenseForeachResult α)) :=
  (if fence then [InplaceEvent.fenceEv] else [])
    ++ [InplaceEvent.assignEv (denseForeach op arg [])]

/-- The default fence flag of foreach_inplace (DensePolicy) is true. -/
def foreach_inplace_dense_default {α : Type} (op : α → List α → α)
    (arg : DenseArray α) : List (InplaceEvent (DenseForeachResult α)) :=
  foreach_inplace_dense op arg true

/-- foreach_inplace (SparsePolicy), foreach.h lines 468-480: fence first
when the flag demands it, then assign the sparse foreach result computed
with the intersection policy. -/
def foreach_inplace_sparse {α : Type} [Inhabited α] (op : α → List α → α × Nat)
    (arg : SparseArray α) (shapeOf : (Nat → Nat) → Nat → Bool) (fence : Bool) :
    List (InplaceEvent (SparseForeachResult α)) :=
  (if fence then [InplaceEvent.fenceEv] else [])
    ++ [InplaceEvent.assignEv
        (sparseForeach ArraySparcitySet.sparse_intersection op arg [] shapeOf)]

/-- The default fence flag of foreach_inplace (SparsePolicy) is true. -/
def foreach_inplace_sparse_default {α : Type} [Inhabited α] (op : α → List α → α × Nat)
    (arg : SparseArray α) (shapeOf : (Nat → Nat) → Nat → Bool) :
    List (InplaceEvent (SparseForeachResult α)) :=
  foreach_inplace_sparse op arg shapeOf true

/-- A madness Future as seen by communicator.h: a probe flag (already
resolved or not) and the value it carries or will eventually carry. -/
structure FutureV (α : Type) where
  probe : Bool
  get : α

/-- Effects the Communicator dispatches: an immediate local cache set of a
plain value, an immediate local cache set of a future (the future overload
of send on the calling process), and a remote task performing the cache
set on the destination (taskq.add(dest, set_cache_data, ...)). -/
inductive CommEffect (κ α : Type) where
  | setLocalValue (key : κ) (value : α)
  | setLocalFuture (key : κ) (value : FutureV α)
  | remoteSetTask (dest : Nat) (key : κ) (value : α)

/-- Communicator::send value overload, communicator.h lines 182-195: if
dest is this process, set the local cache immediately; otherwise spawn a
remote task that performs the cache set on dest. -/
def Communicator.sendValue {κ α : Type} (rank dest : Nat) (key : κ) (value : α) :
    List (CommEffect κ α) :=
  if rank = dest then [CommEffect.setLocalValue key value]
  else [CommEffect.remoteSetTask dest key value]

/-- The DelayedSend callback object, communicator.h lines 47-82: it holds
the destination, the key and the future it is registered on. -/
structure DelayedSend (κ α : Type) where
  dest : Nat
  key : κ
  value : FutureV α

/-- Outcome of the future overload of Communicator::send: the effects
dispatched now and the DelayedSend callbacks created and registered. -/
structure SendFutureOutcome (κ α : Type) where
  effects : List (CommEffect κ α)
  callbacks : List (DelayedSend κ α)

/-- Communicator::send future overload, communicator.h lines 204-225: on
the calling process set the local cache with the future; for a remote dest
with a resolved future spawn the remote set task now; for a remote dest
with an unresolved future create exactly one DelayedSend callback and
register it on the future, dispatching nothing yet. -/
def Communicator.sendFuture {κ α : Type} (rank dest : Nat) (key : κ) (value : FutureV α) :
    SendFutureOutcome κ α :=
  if rank = dest then { effects := [CommEffect.setLocalFuture key value], callbacks := [] }
  else if value.probe then
    { effects := [CommEffect.remoteSetTask dest key value.get], callbacks := [] }
  else { effects := [], callbacks := [{ dest := dest, key := key, value := value }] }

/-- Outcome of DelayedSend::notify: the effects dispatched and whether the
callback destroyed itself (delete this). -/
structure NotifyOutcome (κ α : Type) where
  effects : List (CommEffect κ α)
  destroyed : Bool

/-- DelayedSend::notify, communicator.h lines 76-81: assert the future is
resolved, re-issue Communicator::send with the now-concrete value, then
destroy the callback so it can fire at most once. The argument fut is the
state of the registered future at notification time. -/
def DelayedSend.notify {κ α : Type} (rank : Nat) (cb : DelayedSend κ α)
    (fut : FutureV α) : Except Unit (NotifyOutcome κ α) :=
  if fut.probe then
    Except.ok { effects := Communicator.sendValue rank cb.dest cb.key fut.get, destroyed := true }
  else Except.error ()

/-- Modelled from the spec: a DistributedCache entry (dist_op/dist_cache.h
is not under src). Spec section 4.1: an entry holds either a deposited
value or a pending consumer. -/
inductive CacheEntry (α : Type) where
  | stored (v : α)
  | consumer

/-- Modelled from the spec: DistributedCache set (dist_op/dist_cache.h is
not under src). Spec section 4.1: set deposits a value under the key; if a
consumer already registered, it is immediately handed the value and the
entry is cleared; if no consumer yet, the value is stored; a second set
for the same live key is a fatal logic error. The second component of the
result lists the values handed to waiting consumers. -/
def set_cache_data {κ α : Type} [DecidableEq κ]
    (cache : List (κ × CacheEntry α)) (key : κ) (v : α) :
    Except Unit (List (κ × CacheEntry α) × List α) :=
  match cache.lookup key with
  | none => Except.ok (cache ++ [(key, CacheEntry.stored v)], [])
  | some CacheEntry.consumer =>
      Except.ok (cache.filter (fun p => ! (p.1 == key)), [v])
  | some (CacheEntry.stored _) => Except.error ()

/-- Effect of one dispatched CommEffect on the cache of the calling
process: only an immediate local value set touches it. -/
def localCacheUpdate {κ α : Type} [DecidableEq κ] (cache : List (κ × CacheEntry α))
    (e : CommEffect κ α) : Except Unit (List (κ × CacheEntry α) × List α) :=
  match e with
  | CommEffect.setLocalValue k v => set_cache_data cache k v
  | _ => Except.ok (cache, [])

/-- Effect of one dispatched CommEffect on the cache of process destRank:
a remote set task addressed to destRank performs the cache set there. -/
def remoteCacheUpdate {κ α : Type} [DecidableEq κ] (destRank : Nat)
    (destCache : List (κ × CacheEntry α)) (e : CommEffect κ α) :
    Except Unit (List (κ × CacheEntry α) × List α) :=
  match e with
  | CommEffect.remoteSetTask d k v =>
      if d = destRank then set_cache_data destCache k v else Except.ok (destCache, [])
  | _ => Except.ok (destCache, [])

/-- Observable actions of a broadcast on the calling process: fan the
resolved value out to the tree children now, defer the fan-out until the
root future resolves, or fetch the value from the local cache. -/
inductive BcastAction (κ α : Type) where
  | fanOutNow (key : κ) (value : α)
  | deferredFanOut (key : κ)
  | getFromCache (key : κ)

/-- Communicator::bcast world overload, communicator.h lines 276-301: two
assertions checked first (root within the world, and the value not yet
resolved unless this process is the root), then nothing at all for a world
of size one, otherwise a single action: immediate fan-out on a resolved
root, deferred fan-out on an unresolved root, a cache fetch elsewhere. -/
def Communicator.bcast {κ α : Type} (worldSize rank : Nat) (key : κ)
    (value : FutureV α) (root : Int) : Except Unit (List (BcastAction κ α)) :=
  if ¬ (0 ≤ root ∧ root < (worldSize : Int)) then Except.error ()
  else if ¬ ((rank : Int) = root ∨ value.probe = false) then Except.error ()
  else if 1 < worldSize then
    if (rank : Int) = root then
      if value.probe then Except.ok [BcastAction.fanOutNow key value.get]
      else Except.ok [BcastAction.deferredFanOut key]
    else if value.probe then Except.error ()
    else Except.ok [BcastAction.getFromCache key]
  else Except.ok []

/-- A dist_op Group as consumed by the group bcast: the identity of the
world it was built over, its size, and the group rank of this process with
the sentinel -1 meaning this process is not a member. -/
structure Group where
  worldId : Nat
  size : Nat
  myGroupRank : Int

/-- Communicator::bcast group overload, communicator.h lines 321-343: four
assertions checked first (matching world id, group_root within the group,
the value not yet resolved unless this process is the group root, and
membership of this process), then nothing at all for a group of size one,
otherwise one action as in the world overload. -/
def Communicator.bcastGroup {κ α : Type} (worldId : Nat) (key : κ)
    (value : FutureV α) (groupRoot : Int) (g : Group) :
    Except Unit (List (BcastAction κ α)) :=
  if ¬ (g.worldId = worldId) then Except.error ()
  else if ¬ (0 ≤ groupRoot ∧ groupRoot < (g.size : Int)) then Except.error ()
  else if ¬ (g.myGroupRank = groupRoot ∨ value.probe = false) then Except.error ()
  else if g.myGroupRank = -1 then Except.error ()
  else if 1 < g.size then
    if g.myGroupRank = groupRoot then
      if value.probe then Except.ok [BcastAction.fanOutNow key value.get]
      else Except.ok [BcastAction.deferredFanOut key]
    else Except.ok [BcastAction.getFromCache key]
  else Except.ok []

/-- The tiles range of a tiled range as used by TensorImpl: a membership
test and the coordinate-to-ordinal map. (range.h is not under src; both
operations are opaque collaborator functions.) -/
structure TilesRange where
  includes : Nat → Bool
  ordinal : Nat → Nat

/-- detail::TensorImpl, tensor_impl.h lines 38-170: immutable metadata
consisting of the tiles range, the shape is_zero predicate on ordinals,
and the process map owner and is_local predicates on ordinals. -/
structure TensorImplM where
  trangeTiles : TilesRange
  shapeIsZero : Nat → Bool
  pmapOwner : Nat → Nat
  pmapIsLocal : Nat → Bool

/-- TensorImpl::owner, tensor_impl.h lines 114-118: assert the index is in
the tiles range, then ask the process map at its ordinal. -/
def TensorImplM.owner (t : TensorImplM) (i : Nat) : Except Unit Nat :=
  if t.trangeTiles.includes i then Except.ok (t.pmapOwner (t.trangeTiles.ordinal i))
  else Except.error ()

/-- TensorImpl::is_local, tensor_impl.h lines 126-130: assert the index is
in the tiles range, then ask the process map at its ordinal. -/
def TensorImplM.is_local (t : TensorImplM) (i : Nat) : Except Unit Bool :=
  if t.trangeTiles.includes i then Except.ok (t.pmapIsLocal (t.trangeTiles.ordinal i))
  else Except.error ()

/-- TensorImpl::is_zero, tensor_impl.h lines 139-143: assert the index is
in the tiles range, then ask the shape at its ordinal. -/
def TensorImplM.is_zero (t : TensorImplM) (i : Nat) : Except Unit Bool :=
  if t.trangeTiles.includes i then Except.ok (t.shapeIsZero (t.trangeTiles.ordinal i))
  else Except.error ()

/-! Concrete inputs used to evaluate the embedded code. -/

/-- One sparse operand with tile ordinals 0 and 1 both local: non-zero at
index 0, zero at index 1, every stored tile holding 5. -/
def sArrA : SparseArray Nat :=
  { trange := 2, pmapList := [0, 1], shapeZero := fun i => decide (i = 1)
    tiles := fun _ => 5 }

/-- Second sparse operand for the union policy: zero at every index, with
stored tile value 9 (never legitimately fetched). -/
def sArrB : SparseArray Nat :=
  { trange := 2, pmapList := [0, 1], shapeZero := fun _ => true
    tiles := fun _ => 9 }

/-- A transform returning tile + 1 with norm tile + 1. -/
def opPlusOne : Nat → List Nat → Nat × Nat :=
  fun t _ => (t + 1, t + 1)

/-- A transform summing the first operand tile with all trailing operand
tiles, with norm equal to the first operand tile. -/
def opSum : Nat → List Nat → Nat × Nat :=
  fun t ts => (ts.foldl (fun acc x => acc + x) t, t)

/-- Shape constructor: a tile is zero exactly when its recorded norm is
zero (a SparseShape with threshold zero). -/
def thresholdShape : (Nat → Nat) → Nat → Bool :=
  fun norms i => decide (norms i = 0)

/-- Dense operand with tiles range volume 2 and tiles 10, 11. -/
def dArrA : DenseArray Nat :=
  { trange := 2, pmapList := [0, 1], tiles := fun i => i + 10 }

/-- Dense operand with a different tiles range volume, 3, and tiles 20, 21. -/
def dArrB : DenseArray Nat :=
  { trange := 3, pmapList := [0, 1], tiles := fun i => i + 20 }

/-! Claims. -/

/-- Claim C1, evaluated on the code as written. The claim states that with
the intersection policy a per-tile task is spawned exactly when every
operand is non-zero at the index. On one operand that is non-zero at
index 0 and zero at index 1, the embedded loop spawns its only task at
index 1 — the index with a zero operand — and skips index 0 where every
operand is non-zero: the guard if(! is_zero_intersection(...)) continue
keeps exactly the indices whose combined-zero flag is true, the inverse of
the stated policy. -/
theorem sparse_intersection_guard_inverted :
    (sparseForeach ArraySparcitySet.sparse_intersection opPlusOne sArrA []
        thresholdShape).state.tiles.map Prod.fst = [1]
    ∧ SparseArray.is_zero sArrA 0 = false
    ∧ SparseArray.is_zero sArrA 1 = true
    ∧ (sparseForeach ArraySparcitySet.sparse_intersection opPlusOne sArrA []
        thresholdShape).state.taskCount = 1 := by
  refine ⟨?_, rfl, rfl, ?_⟩ <;> rfl

/-- Claim C2, evaluated on the code as written. The claim states that with
the union policy a task is spawned exactly when at least one operand is
non-zero at the index, with zero operands replaced by default tiles. On
operands where the first is non-zero at index 0 and both are zero at
index 1, the embedded loop skips index 0 entirely and spawns its only
task at index 1 where all operands are zero, feeding it only
default-constructed tiles (the computed tile is 0 although the stored
tiles are 7 and 9): the guard if(! is_zero_union(...)) continue keeps
exactly the all-zero indices, the inverse of the stated policy. -/
theorem sparse_union_guard_inverted :
    (sparseForeach ArraySparcitySet.sparse_union opSum
        { trange := 2, pmapList := [0, 1], shapeZero := fun i => decide (i = 1)
          tiles := fun _ => 7 } [sArrB] thresholdShape).state.tiles = [(1, 0)]
    ∧ SparseArray.is_zero
        { trange := 2, pmapList := [0, 1], shapeZero := fun i => decide (i = 1)
          tiles := fun _ => 7 } 0 = false
    ∧ SparseArray.is_zero sArrB 1 = true := by
  refine ⟨?_, rfl, rfl⟩
  rfl

/-- Claim C3, evaluated on the code as written. The claim states that a
multi-array foreach whose operands do not share one tiled range fails a
fatal precondition check before any task is spawned. The embedded dense
foreach, applied to arrays whose tiled ranges differ (compare_trange
reports the mismatch, but detail::foreach never invokes it), spawns one
task per local index and stores result tiles with no check at all. -/
theorem dense_foreach_no_trange_check :
    compare_trange dArrA [dArrB] = false
    ∧ (denseForeach (fun t ts => ts.foldl (fun acc x => acc + x) t)
        dArrA [dArrB]).tasks = [0, 1]
    ∧ (denseForeach (fun t ts => ts.foldl (fun acc x => acc + x) t)
        dArrA [dArrB]).resultTiles = [(0, 30), (1, 32)] := by
  refine ⟨rfl, rfl, ?_⟩
  rfl

/-- Claim C5: the dense foreach builds the result on the tiled range and
process map of the input, spawns exactly one task per locally owned index
of the first input, stores at each such index the transform of the
operand tiles there, and stores nothing at any non-owned index. -/
theorem dense_foreach_spec {α β : Type} (op : α → List α → β)
    (arg : DenseArray α) (args : List (DenseArray α)) :
    (denseForeach op arg args).resultTrange = arg.trange
    ∧ (denseForeach op arg args).resultPmap = arg.pmapList
    ∧ (denseForeach op arg args).tasks = arg.pmapList
    ∧ (denseForeach op arg args).tasks.length = arg.pmapList.length
    ∧ ∀ i t, ((i, t) ∈ (denseForeach op arg args).resultTiles
        ↔ i ∈ arg.pmapList ∧ t = op (arg.find i) (args.map (fun a => a.find i))) := by
  refine ⟨rfl, rfl, rfl, rfl, ?_⟩
  intro i t
  constructor
  · intro hmem
    rcases List.mem_map.mp hmem with ⟨j, hj, hEq⟩
    simp only [Prod.mk.injEq] at hEq
    obtain ⟨rfl, rfl⟩ := hEq
    exact ⟨hj, rfl⟩
  · rintro ⟨hi, rfl⟩
    exact List.mem_map.mpr ⟨i, hi, rfl⟩

/-- Witness for claim C5 at a concrete input. -/
theorem dense_foreach_spec_witness :
    (denseForeach (fun t ts => ts.foldl (fun acc x => acc + x) t)
        dArrA [dArrB]).resultTrange = 2
    ∧ (0, 30) ∈ (denseForeach (fun t ts => ts.foldl (fun acc x => acc + x) t)
        dArrA [dArrB]).resultTiles := by
  have h := dense_foreach_spec (fun t ts => ts.foldl (fun acc x => acc + x) t) dArrA [dArrB]
  exact ⟨h.1, (h.2.2.2.2 0 30).mpr ⟨by decide, by rfl⟩⟩

/-- A property preserved by every step of a left fold holds of its result. -/
theorem foldlPreserves {σ ι : Type} (P : σ → Prop) (f : σ → ι → σ)
    (h : ∀ s i, P s → P (f s i)) :
    ∀ (l : List ι) (s : σ), P s → P (l.foldl f s) := by
  intro l
  induction l with
  | nil => intro s hs; exact hs
  | cons x xs ih =>
      intro s hs
      exact ih (f s x) (h s x hs)

/-- The sparse loop keeps the completion counter, the task count and the
length of the pending-tiles vector in lockstep. -/
theorem sparseLoop_invariant {α β : Type} [Inhabited α] (ss : ArraySparcitySet)
    (op : α → List α → β × Nat) (arg : SparseArray α) (args : List (SparseArray α)) :
    (sparseLoop ss op arg args).counter = (sparseLoop ss op arg args).taskCount
    ∧ (sparseLoop ss op arg args).taskCount = (sparseLoop ss op arg args).tiles.length := by
  have hspawn : ∀ (st : SparseState β) (index : Nat) (t : α) (ts : List α),
      (st.counter = st.taskCount ∧ st.taskCount = st.tiles.length) →
      ((spawnTile op st index t ts).counter = (spawnTile op st index t ts).taskCount
        ∧ (spawnTile op st index t ts).taskCount
            = (spawnTile op st index t ts).tiles.length) := by
    intro st index t ts h
    simp [spawnTile, h.1, h.2]
  cases ss with
  | sparse_intersection =>
      refine foldlPreserves
        (fun st => st.counter = st.taskCount ∧ st.taskCount = st.tiles.length)
        (fun st index =>
          if ! is_zero_intersection (arg.is_zero index :: args.map (fun a => a.is_zero index))
          then st
          else spawnTile op st index (arg.find index) (args.map (fun a => a.find index)))
        ?_ arg.pmapList (initialSparseState β) ⟨rfl, rfl⟩
      intro s i hP
      dsimp only
      split
      · exact hP
      · exact hspawn s i _ _ hP
  | sparse_union =>
      refine foldlPreserves
        (fun st => st.counter = st.taskCount ∧ st.taskCount = st.tiles.length)
        (fun st index =>
          if ! is_zero_union (arg.is_zero index :: args.map (fun a => a.is_zero index))
          then st
          else spawnTile op st index (get_sparse_tile index arg)
            (args.map (fun a => get_sparse_tile index a)))
        ?_ arg.pmapList (initialSparseState β) ⟨rfl, rfl⟩
      intro s i hP
      dsimp only
      split
      · exact hP
      · exact hspawn s i _ _ hP

/-- Claim C4: when the sparse foreach constructs the result shape, the
completion counter equals the number of spawned tasks (the await condition
of the local fan-in), which also equals the number of pending tiles; the
result shape is exactly the shape constructor applied to the tile_norms
magnitude tensor; and a pending tile is committed into the result if and
only if that newly built shape holds its index non-zero — a computed tile
whose magnitude the shape rounds to zero is dropped. -/
theorem sparse_foreach_commit_spec {α β : Type} [Inhabited α] (ss : ArraySparcitySet)
    (op : α → List α → β × Nat) (arg : SparseArray α) (args : List (SparseArray α))
    (shapeOf : (Nat → Nat) → Nat → Bool) :
    ((sparseForeach ss op arg args shapeOf).state.counter
        = (sparseForeach ss op arg args shapeOf).state.taskCount)
    ∧ ((sparseForeach ss op arg args shapeOf).state.taskCount
        = (sparseForeach ss op arg args shapeOf).state.tiles.length)
    ∧ ((sparseForeach ss op arg args shapeOf).resultIsZero
        = shapeOf (sparseForeach ss op arg args shapeOf).state.tileNorms)
    ∧ (∀ p : Nat × β,
        p ∈ (sparseForeach ss op arg args shapeOf).committed
          ↔ p ∈ (sparseForeach ss op arg args shapeOf).state.tiles
            ∧ (sparseForeach ss op arg args shapeOf).resultIsZero p.1 = false) := by
  have hinv := sparseLoop_invariant ss op arg args
  refine ⟨hinv.1, hinv.2, rfl, ?_⟩
  intro p
  show p ∈ (sparseLoop ss op arg args).tiles.filter
      (fun q => ! shapeOf (sparseLoop ss op arg args).tileNorms q.1) ↔ _
  rw [List.mem_filter]
  constructor
  · intro h
    exact ⟨h.1, by simpa using h.2⟩
  · intro h
    exact ⟨h.1, by simpa using h.2⟩

/-- Witness for claim C4 at a concrete input. -/
theorem sparse_foreach_commit_spec_witness :
    ((sparseForeach ArraySparcitySet.sparse_intersection opPlusOne sArrA []
        thresholdShape).state.counter
      = (sparseForeach ArraySparcitySet.sparse_intersection opPlusOne sArrA []
        thresholdShape).state.taskCount)
    ∧ ((1, 6) ∈ (sparseForeach ArraySparcitySet.sparse_intersection opPlusOne sArrA []
        thresholdShape).committed
      ↔ (1, 6) ∈ (sparseForeach ArraySparcitySet.sparse_intersection opPlusOne sArrA []
        thresholdShape).state.tiles
        ∧ (sparseForeach ArraySparcitySet.sparse_intersection opPlusOne sArrA []
          thresholdShape).resultIsZero 1 = false) := by
  have h := sparse_foreach_commit_spec ArraySparcitySet.sparse_intersection opPlusOne
    sArrA [] thresholdShape
  exact ⟨h.1, h.2.2.2 (1, 6)⟩

/-- Claim C6: the future overload of Communicator::send creates exactly
one DelayedSend callback when the destination is remote and the value is
still pending, and none when the value is already resolved or the
destination is the local process; every created callback carries the
destination and key of the send, and notifying it with the resolved
future dispatches the plain-value send with the now-concrete value and
destroys the callback, while notifying it with an unresolved future fails
the assertion. -/
theorem delayed_send_spec {κ α : Type} (rank dest : Nat) (key : κ) (fv : FutureV α) :
    ((Communicator.sendFuture rank dest key fv).callbacks.length
        = if rank ≠ dest ∧ fv.probe = false then 1 else 0)
    ∧ ((rank = dest ∨ fv.probe = true) →
        (Communicator.sendFuture rank dest key fv).callbacks = [])
    ∧ (∀ cb, cb ∈ (Communicator.sendFuture rank dest key fv).callbacks →
        cb.dest = dest ∧ cb.key = key
        ∧ (∀ fut : FutureV α, fut.probe = true →
            DelayedSend.notify rank cb fut
              = Except.ok { effects := Communicator.sendValue rank dest key fut.get
                            destroyed := true })
        ∧ (∀ fut : FutureV α, fut.probe = false →
            DelayedSend.notify rank cb fut = Except.error ())) := by
  by_cases h : rank = dest
  · refine ⟨?_, fun _ => ?_, fun cb hcb => ?_⟩
    · simp [Communicator.sendFuture, h]
    · simp [Communicator.sendFuture, h]
    · simp [Communicator.sendFuture, h] at hcb
  · cases hfp : fv.probe with
    | true =>
        refine ⟨?_, fun _ => ?_, fun cb hcb => ?_⟩
        · simp [Communicator.sendFuture, h, hfp]
        · simp [Communicator.sendFuture, h, hfp]
        · simp [Communicator.sendFuture, h, hfp] at hcb
    | false =>
        refine ⟨?_, fun hor => ?_, fun cb hcb => ?_⟩
        · simp [Communicator.sendFuture, h, hfp]
        · rcases hor with hor | hor
          · exact absurd hor h
          · exact absurd hor (by simp [hfp])
        · simp only [Communicator.sendFuture, if_neg h, hfp] at hcb
          simp only [Bool.false_eq_true, if_false, List.mem_singleton] at hcb
          subst hcb
          refine ⟨rfl, rfl, ?_, ?_⟩
          · intro fut hfut
            simp [DelayedSend.notify, hfut]
          · intro fut hfut
            simp [DelayedSend.notify, hfut]

/-- Witness for claim C6 at a concrete input: remote destination, pending
value. -/
theorem delayed_send_spec_witness :
    ((@Communicator.sendFuture Nat Nat 0 1 5 { probe := false, get := 3 }).callbacks.length = 1)
    ∧ (∀ cb, cb ∈ (@Communicator.sendFuture Nat Nat 0 1 5
          { probe := false, get := 3 }).callbacks →
        DelayedSend.notify 0 cb { probe := true, get := 7 }
          = Except.ok { effects := Communicator.sendValue 0 1 5 7, destroyed := true }) := by
  have h := @delayed_send_spec Nat Nat 0 1 5 { probe := false, get := 3 }
  refine ⟨?_, ?_⟩
  · rw [h.1]
    decide
  · intro cb hcb
    exact (h.2.2 cb hcb).2.2.1 { probe := true, get := 7 } rfl

/-- Claim C7: sending a plain value to the local rank is exactly one
immediate local cache set and dispatches no task, and the future overload
at the local rank likewise performs only the immediate local set with no
callback; sending to any other rank leaves the local cache untouched and
dispatches exactly one remote task whose execution on the destination
performs the cache set there. -/
theorem send_local_equiv {κ α : Type} [DecidableEq κ] (rank dest : Nat) (key : κ)
    (v : α) (fv : FutureV α) (cache destCache : List (κ × CacheEntry α)) :
    (rank = dest →
      Communicator.sendValue rank dest key v = [CommEffect.setLocalValue key v]
      ∧ (Communicator.sendFuture rank dest key fv).effects
          = [CommEffect.setLocalFuture key fv]
      ∧ (Communicator.sendFuture rank dest key fv).callbacks = [])
    ∧ (rank ≠ dest →
      Communicator.sendValue rank dest key v = [CommEffect.remoteSetTask dest key v]
      ∧ localCacheUpdate cache (CommEffect.remoteSetTask dest key v)
          = Except.ok (cache, [])
      ∧ remoteCacheUpdate dest destCache (CommEffect.remoteSetTask dest key v)
          = set_cache_data destCache key v)
    ∧ localCacheUpdate cache (CommEffect.setLocalValue key v)
        = set_cache_data cache key v := by
  refine ⟨?_, ?_, rfl⟩
  · intro h
    refine ⟨?_, ?_, ?_⟩
    · simp [Communicator.sendValue, h]
    · simp [Communicator.sendFuture, h]
    · simp [Communicator.sendFuture, h]
  · intro h
    refine ⟨?_, rfl, ?_⟩
    · simp [Communicator.sendValue, h]
    · simp [remoteCacheUpdate]

/-- Witness for claim C7 at concrete inputs, both branches. -/
theorem send_local_equiv_witness :
    (@Communicator.sendValue Nat Nat 2 2 5 11 = [CommEffect.setLocalValue 5 11])
    ∧ (@Communicator.sendValue Nat Nat 0 2 5 11 = [CommEffect.remoteSetTask 2 5 11])
    ∧ (localCacheUpdate ([] : List (Nat × CacheEntry Nat))
        (CommEffect.setLocalValue 5 11)
        = set_cache_data [] 5 11) := by
  have h1 := @send_local_equiv Nat Nat _ 2 2 5 11 { probe := false, get := 0 } [] []
  have h2 := @send_local_equiv Nat Nat _ 0 2 5 11 { probe := false, get := 0 } [] []
  exact ⟨(h1.1 rfl).1, (h2.2.1 (by decide)).1, h1.2.2⟩

/-- Claim C8: in both the world and the group broadcast a root rank
outside the scope fails an assertion, a non-root caller with an already
resolved value fails an assertion — in both cases the call produces no
fan-out actions — and a scope of size one performs no communication at
all once the checks pass. -/
theorem bcast_precondition_spec {κ α : Type} (worldSize rank : Nat) (key : κ)
    (value : FutureV α) (root : Int) (worldId : Nat) (groupRoot : Int) (g : Group) :
    (¬ (0 ≤ root ∧ root < (worldSize : Int)) →
        Communicator.bcast worldSize rank key value root = Except.error ())
    ∧ ((0 ≤ root ∧ root < (worldSize : Int)) → (rank : Int) ≠ root →
        value.probe = true →
        Communicator.bcast worldSize rank key value root = Except.error ())
    ∧ (worldSize = 1 → 0 ≤ root → root < 1 →
        ((rank : Int) = root ∨ value.probe = false) →
        Communicator.bcast worldSize rank key value root = Except.ok [])
    ∧ (g.worldId = worldId → ¬ (0 ≤ groupRoot ∧ groupRoot < (g.size : Int)) →
        Communicator.bcastGroup worldId key value groupRoot g = Except.error ())
    ∧ (g.worldId = worldId → (0 ≤ groupRoot ∧ groupRoot < (g.size : Int)) →
        g.myGroupRank ≠ groupRoot → value.probe = true →
        Communicator.bcastGroup worldId key value groupRoot g = Except.error ())
    ∧ (g.worldId = worldId → g.size = 1 → 0 ≤ groupRoot → groupRoot < 1 →
        (g.myGroupRank = groupRoot ∨ value.probe = false) → g.myGroupRank ≠ -1 →
        Communicator.bcastGroup worldId key value groupRoot g = Except.ok []) := by
  refine ⟨?_, ?_, ?_, ?_, ?_, ?_⟩
  · intro h
    simp [Communicator.bcast, h]
  · intro h1 h2 h3
    simp [Communicator.bcast, h1, h2, h3]
  · intro hws h0 h1 hor
    subst hws
    have hroot : root = 0 := by omega
    subst hroot
    rcases hor with h | h <;> simp [Communicator.bcast, h]
  · intro hw h
    simp [Communicator.bcastGroup, hw, h]
  · intro hw h1 h2 h3
    simp [Communicator.bcastGroup, hw, h1, h2, h3]
  · intro hw hs h0 h1 hor hmem
    have hroot : groupRoot = 0 := by omega
    subst hroot
    rcases hor with h | h <;> simp [Communicator.bcastGroup, hw, hs, h, hmem]

/-- Witness for claim C8 at concrete inputs: an out-of-range root fails,
and a size-one world broadcast is a no-op. -/
theorem bcast_precondition_spec_witness :
    (@Communicator.bcast Nat Nat 2 0 5 { probe := false, get := 0 } 7
        = Except.error ())
    ∧ (@Communicator.bcast Nat Nat 1 0 5 { probe := false, get := 0 } 0
        = Except.ok [])
    ∧ (@Communicator.bcastGroup Nat Nat 4 5 { probe := false, get := 0 } 0
        { worldId := 4, size := 1, myGroupRank := 0 } = Except.ok []) := by
  have h1 := @bcast_precondition_spec Nat Nat 2 0 5 { probe := false, get := 0 } 7 4 0
    { worldId := 4, size := 1, myGroupRank := 0 }
  have h2 := @bcast_precondition_spec Nat Nat 1 0 5 { probe := false, get := 0 } 0 4 0
    { worldId := 4, size := 1, myGroupRank := 0 }
  refine ⟨h1.1 (by decide), h2.2.2.1 rfl (by decide) (by decide) (Or.inr rfl), ?_⟩
  exact h2.2.2.2.2.2 rfl rfl (by decide) (by decide) (Or.inl rfl) (by decide)

/-- Claim C9: with the fence flag true the in-place foreach first executes
the world fence and only then assigns the freshly computed array, for both
the dense and the sparse variant; with the flag false no fence event
occurs and the assignment proceeds directly; and the default value of the
flag is true. -/
theorem foreach_inplace_fence_spec {α : Type} [Inhabited α]
    (opd : α → List α → α) (ops : α → List α → α × Nat)
    (argd : DenseArray α) (argS : SparseArray α)
    (shapeOf : (Nat → Nat) → Nat → Bool) (fence : Bool) :
    (fence = true →
      foreach_inplace_dense opd argd fence
        = [InplaceEvent.fenceEv, InplaceEvent.assignEv (denseForeach opd argd [])]
      ∧ foreach_inplace_sparse ops argS shapeOf fence
        = [InplaceEvent.fenceEv, InplaceEvent.assignEv
            (sparseForeach ArraySparcitySet.sparse_intersection ops argS [] shapeOf)])
    ∧ (fence = false →
      foreach_inplace_dense opd argd fence
        = [InplaceEvent.assignEv (denseForeach opd argd [])]
      ∧ foreach_inplace_sparse ops argS shapeOf fence
        = [InplaceEvent.assignEv
            (sparseForeach ArraySparcitySet.sparse_intersection ops argS [] shapeOf)])
    ∧ foreach_inplace_dense_default opd argd = foreach_inplace_dense opd argd true
    ∧ foreach_inplace_sparse_default ops argS shapeOf
        = foreach_inplace_sparse ops argS shapeOf true := by
  refine ⟨?_, ?_, rfl, rfl⟩
  · intro h
    subst h
    exact ⟨rfl, rfl⟩
  · intro h
    subst h
    exact ⟨rfl, rfl⟩

/-- Witness for claim C9 at a concrete input with the fence disabled. -/
theorem foreach_inplace_fence_spec_witness :
    foreach_inplace_dense (fun t _ => t + 1) dArrA false
      = [InplaceEvent.assignEv (denseForeach (fun t _ => t + 1) dArrA [])] := by
  have h := foreach_inplace_fence_spec (fun t _ => t + 1) opPlusOne dArrA sArrA
    thresholdShape false
  exact (h.2.1 rfl).1

/-- Claim C10: the TensorImpl queries owner, is_local and is_zero all fail
their assertion on an index outside the tiles range, and on an in-range
index owner and is_local report exactly the process-map verdict at the
ordinal of the index while is_zero reports exactly the shape verdict at
that ordinal; all three are pure reads of the immutable TensorImpl record. -/
theorem tensor_impl_query_spec (t : TensorImplM) (i : Nat) :
    (t.trangeTiles.includes i = false →
      t.owner i = Except.error ()
      ∧ TensorImplM.is_local t i = Except.error ()
      ∧ TensorImplM.is_zero t i = Except.error ())
    ∧ (t.trangeTiles.includes i = true →
      t.owner i = Except.ok (t.pmapOwner (t.trangeTiles.ordinal i))
      ∧ TensorImplM.is_local t i = Except.ok (t.pmapIsLocal (t.trangeTiles.ordinal i))
      ∧ TensorImplM.is_zero t i = Except.ok (t.shapeIsZero (t.trangeTiles.ordinal i))) := by
  constructor
  · intro h
    refine ⟨?_, ?_, ?_⟩ <;>
      simp [TensorImplM.owner, TensorImplM.is_local, TensorImplM.is_zero, h]
  · intro h
    refine ⟨?_, ?_, ?_⟩ <;>
      simp [TensorImplM.owner, TensorImplM.is_local, TensorImplM.is_zero, h]

/-- Witness for claim C10 at a concrete input: a four-tile range with an
identity ordinal map, queried in range and out of range. -/
theorem tensor_impl_query_spec_witness :
    (TensorImplM.owner
        { trangeTiles := { includes := fun i => decide (i < 4), ordinal := fun i => i }
          shapeIsZero := fun i => decide (i = 2)
          pmapOwner := fun i => i % 2
          pmapIsLocal := fun i => decide (i % 2 = 0) } 5 = Except.error ())
    ∧ (TensorImplM.is_zero
        { trangeTiles := { includes := fun i => decide (i < 4), ordinal := fun i => i }
          shapeIsZero := fun i => decide (i = 2)
          pmapOwner := fun i => i % 2
          pmapIsLocal := fun i => decide (i % 2 = 0) } 2 = Except.ok true) := by
  have h1 := tensor_impl_query_spec
    { trangeTiles := { includes := fun i => decide (i < 4), ordinal := fun i => i }
      shapeIsZero := fun i => decide (i = 2)
      pmapOwner := fun i => i % 2
      pmapIsLocal := fun i => decide (i % 2 = 0) } 5
  have h2 := tensor_impl_query_spec
    { trangeTiles := { includes := fun i => decide (i < 4), ordinal := fun i => i }
      shapeIsZero := fun i => decide (i = 2)
      pmapOwner := fun i => i % 2
      pmapIsLocal := fun i => decide (i % 2 = 0) } 2
  exact ⟨(h1.1 rfl).1, (h2.2 rfl).2.2⟩

end TA
